import Mathlib

/-!
Shallow embedding of the schema-inference and chunked transactional loading
engine of the data-import tool (source files: utils.py, import_data_pro.py).

Modelling conventions:
* pandas cell values are `Option String` (`none` = missing / NaN; object-column
  values are kept in stringified form, matching the `astype(str)` step of the
  inferencer).
* a pandas DataFrame is a list of named columns plus an explicit row count
  (pandas allows a frame with rows but zero columns, so the row count is not
  derivable from the columns).
* the destination database is an association list from table name to table
  (column name/type pairs plus rows); the SQLAlchemy inspector calls
  `get_table_names` / `get_columns` read this list.
* `to_sql` writes are modelled operationally; external write failures (network,
  constraint violations, ...) are injected through a boolean oracle.
* float / datetime parsing done by pandas (`astype(float)`, `to_datetime`) is
  kept abstract as a pair of predicates on strings, since the engine only uses
  them as all-or-nothing tests over a sample.
* Python `str.lower` / `str.isalpha` are modelled by their ASCII behaviour:
  every character they are applied to in `sanitize_table_name` is already in
  the ASCII class `[A-Za-z0-9_]` produced by the regex substitution.
-/

namespace DIT

/-- SQL type tags produced by the type inferencer (source: infer_column_type). -/
inductive SqlType
  | bigint
  | doublePrecision
  | boolean
  | timestamp
  | text
deriving DecidableEq, Repr

/-- The pandas-native dtype classes distinguished by pass 1 of the inferencer. -/
inductive Dtype
  | intD
  | floatD
  | boolD
  | datetimeD
  | objectD
deriving DecidableEq, Repr

/-- One pandas column: its native dtype and its cells (`none` = missing). -/
structure Column where
  dtype : Dtype
  cells : List (Option String)
deriving DecidableEq, Repr

/-- A named pandas column; the name is `none` for an unnamed (NaN) header. -/
structure NamedCol where
  name : Option String
  col : Column
deriving DecidableEq, Repr

/-- A pandas DataFrame: named columns plus an explicit row count. -/
structure DataFrame where
  cols : List NamedCol
  nrows : Nat
deriving DecidableEq, Repr

/-- The `--if-exists` policy choices of the importer. -/
inductive IfExists
  | replace
  | append
  | fail
deriving DecidableEq, Repr

/-- A destination table: column (name, reported type) pairs and its rows. -/
structure Table where
  cols : List (String × String)
  rows : List (List String)
deriving DecidableEq, Repr

/-- The destination database: an association list of named tables. -/
abbrev DB : Type := List (String × Table)

/-- Errors surfaced by a single destination write. -/
inductive WriteError
  | tableExistsFail
  | externalFailure
deriving DecidableEq, Repr

/-- Abstract parsers for the two pandas conversions used by pass 2 of the
inferencer: `astype(float)` success and `to_datetime(..., errors=raise)`
success on a single stringified value. -/
structure Parsers where
  floatOk : String → Bool
  dateOk : String → Bool

/-! ### Character class helpers (ASCII, as used by the source's regexes) -/

/-- ASCII upper-case letter, the `A-Z` range of the source's regex. -/
def isAsciiUpper (c : Char) : Bool := decide (65 ≤ c.toNat ∧ c.toNat ≤ 90)

/-- ASCII lower-case letter, the `a-z` range of the source's regex. -/
def isAsciiLower (c : Char) : Bool := decide (97 ≤ c.toNat ∧ c.toNat ≤ 122)

/-- ASCII digit, the `0-9` range of the source's regex. -/
def isAsciiDigit (c : Char) : Bool := decide (48 ≤ c.toNat ∧ c.toNat ≤ 57)

/-- Membership in the character class `[a-zA-Z0-9_]` of sanitize_table_name. -/
def isWordChar (c : Char) : Bool :=
  isAsciiUpper c || isAsciiLower c || isAsciiDigit c || c == '_'

/-- Python ASCII whitespace as stripped by `str.strip()`. -/
def isPyWhitespace (c : Char) : Bool :=
  c == ' ' || c == '\t' || c == '\n' || c == '\r' || c == '\x0b' || c == '\x0c'

/-- Python `str.strip()`: remove leading and trailing whitespace. -/
def pyStrip (l : List Char) : List Char :=
  ((l.dropWhile isPyWhitespace).reverse.dropWhile isPyWhitespace).reverse

/-! ### Validation (source: validate_dataframe, is_valid_sheet) -/

/-- The control characters rejected by validate_dataframe (`bad_chars`). -/
def badChars : List Char := ['\x00', '\n', '\r', '\t']

/-- The per-column-name loop of validate_dataframe: strip the name, reject a
blank result, reject a stripped name containing a control character. -/
def validateNames : List String → Except String Bool
  | [] => .ok true
  | n :: rest =>
    if (pyStrip n.toList).isEmpty then .error "blank column name"
    else if (pyStrip n.toList).any (fun c => badChars.contains c) then
      .error "control characters in column name"
    else validateNames rest

/-- validate_dataframe: reject an empty frame (pandas `df.empty`: zero rows or
zero columns), reject null column names, then run the per-name loop. -/
def validate_dataframe (df : DataFrame) : Except String Bool :=
  if df.nrows = 0 ∨ df.cols.length = 0 then .error "file is empty"
  else if df.cols.any (fun c => c.name.isNone) then .error "unnamed columns"
  else validateNames (df.cols.map (fun c => c.name.getD ""))

/-- Whether some row of the frame (indices below nrows) has a non-missing
cell, i.e. pandas `not df.dropna(how=all).empty`. A cell index beyond a
column's length reads as missing. -/
def hasNonNaRow (df : DataFrame) : Bool :=
  (List.range df.nrows).any (fun r =>
    df.cols.any (fun c => (c.col.cells.getD r none).isSome))

/-- is_valid_sheet: a workbook sheet is a real table when it is non-empty,
has at least two columns, not all column names are null, and dropping
fully-empty rows leaves something. -/
def is_valid_sheet (df : DataFrame) : Bool :=
  if df.nrows = 0 ∨ df.cols.length = 0 then false
  else if df.cols.length < 2 then false
  else if df.cols.all (fun c => c.name.isNone) then false
  else if !hasNonNaRow df then false
  else true

/-! ### Type inference (source: infer_column_type, infer_schema) -/

/-- Full-string match of the source's integer regex, optional minus sign then
one or more digits. -/
def isIntString (s : String) : Bool :=
  let l := s.toList
  let body := if l.head? = some '-' then l.tail else l
  !body.isEmpty && body.all isAsciiDigit

/-- The pass-2 sample: first 100 non-missing values (already stringified),
pandas `column.dropna().astype(str).head(100)`. -/
def sampleOf (col : Column) : List String :=
  (col.cells.filterMap id).take 100

/-- infer_column_type: pass 1 trusts the native dtype; pass 2 tests the
sample, in order, for all-integer, all-float, all-datetime, else TEXT;
an empty sample yields TEXT. -/
def infer_column_type (prs : Parsers) (col : Column) : SqlType :=
  match col.dtype with
  | .intD => .bigint
  | .floatD => .doublePrecision
  | .boolD => .boolean
  | .datetimeD => .timestamp
  | .objectD =>
    if (sampleOf col).isEmpty then .text
    else if (sampleOf col).all isIntString then .bigint
    else if (sampleOf col).all prs.floatOk then .doublePrecision
    else if (sampleOf col).all prs.dateOk then .timestamp
    else .text

/-- infer_schema: one inferred type per column, keyed by the column name. -/
def infer_schema (prs : Parsers) (df : DataFrame) : List (Option String × SqlType) :=
  df.cols.map (fun c => (c.name, infer_column_type prs c.col))

/-! ### Destination catalog (source: table_exists, check_schema_compatibility) -/

/-- Look a table up by name in the destination (first match). -/
def lookupTable : DB → String → Option Table
  | [], _ => none
  | (m, u) :: rest, n => if m = n then some u else lookupTable rest n

/-- Replace the named table if present, otherwise add it at the end. -/
def setTable : DB → String → Table → DB
  | [], n, t => [(n, t)]
  | (m, u) :: rest, n, t =>
    if m = n then (n, t) :: rest else (m, u) :: setTable rest n t

/-- table_exists: whether the destination catalog lists the table. -/
def table_exists (db : DB) (name : String) : Bool := (lookupTable db name).isSome

/-- The `missing` set of check_schema_compatibility: existing column names
absent from the new schema's keys. -/
def missingCols (existing : List (String × String))
    (newSchema : List (Option String × SqlType)) : List String :=
  (existing.map Prod.fst).filter (fun n => !(newSchema.map Prod.fst).contains (some n))

/-- The `extra` set of check_schema_compatibility: new schema keys absent
from the existing column names (a null key never matches an existing name). -/
def extraCols (existing : List (String × String))
    (newSchema : List (Option String × SqlType)) : List (Option String) :=
  (newSchema.map Prod.fst).filter (fun k =>
    match k with
    | some s => !(existing.map Prod.fst).contains s
    | none => true)

/-- check_schema_compatibility: trivially true when the table does not exist;
otherwise compare the existing column-name set with the new schema's key set
and fail with the (missing, extra) pair when they differ. Types are not
compared. -/
def check_schema_compatibility (db : DB) (name : String)
    (newSchema : List (Option String × SqlType)) :
    Except (List String × List (Option String)) Bool :=
  match lookupTable db name with
  | none => .ok true
  | some t =>
    if !(missingCols t.cols newSchema).isEmpty || !(extraCols t.cols newSchema).isEmpty then
      .error (missingCols t.cols newSchema, extraCols t.cols newSchema)
    else .ok true

/-! ### Chunk-threshold decision (source: is_large_csv, import_csv_file) -/

/-- Lower-case a path as Python `str.lower`, ASCII model. -/
def toLowerList (l : List Char) : List Char := l.map Char.toLower

/-- The characters of the literal suffix checked by is_large_csv. -/
def csvSuffix : List Char := ['.', 'c', 's', 'v']

/-- is_large_csv: the lower-cased path must end in the csv suffix and the
byte size divided by 1024*1024 must strictly exceed the threshold in MiB
(default 200). Real division, exact for the float division of the source. -/
def is_large_csv (path : List Char) (sizeBytes : Nat) (thresholdMb : Nat) : Bool :=
  if !(csvSuffix.isSuffixOf (toLowerList path)) then false
  else decide ((thresholdMb : ℚ) < (sizeBytes : ℚ) / (1024 * 1024))

/-- Which write path a load uses. -/
inductive LoadMethod
  | chunked
  | singleShot
deriving DecidableEq, Repr

/-- The branch taken by import_csv_file: chunked when is_large_csv holds at
the default 200 MiB threshold, otherwise one whole-frame to_sql call. -/
def csv_load_method (path : List Char) (sizeBytes : Nat) : LoadMethod :=
  if is_large_csv path sizeBytes 200 then .chunked else .singleShot

/-- import_excel_file writes every sheet with one whole-frame to_sql call. -/
def excel_sheet_load_method : LoadMethod := .singleShot

/-! ### Destination writes and the chunked loader (source: import_in_chunks) -/

/-- One `to_sql` call against the destination. `externalFail` injects a
destination-side failure. A missing table is created from the frame under
every mode; `replace` recreates it; `append` keeps the existing columns and
concatenates rows; `fail` errors when the table exists. -/
def to_sql (db : DB) (name : String) (frame : Table) (mode : IfExists)
    (externalFail : Bool) : Except WriteError DB :=
  if externalFail then .error .externalFailure
  else
    match lookupTable db name, mode with
    | none, _ => .ok (setTable db name ⟨frame.cols, frame.rows⟩)
    | some _, .replace => .ok (setTable db name ⟨frame.cols, frame.rows⟩)
    | some t, .append => .ok (setTable db name ⟨t.cols, t.rows ++ frame.rows⟩)
    | some _, .fail => .error .tableExistsFail

/-- The enumerate loop of import_in_chunks, on one open transaction scope.
Batch `i` (absolute index) writes with `append` when `i > 0`, else with the
invocation's policy. Returns the connection state and the trace of
(index, mode) pairs of the completed writes; the first failure aborts. -/
def runChunks (name : String) (policy : IfExists) (failAt : Nat → Bool) :
    DB → List Table → Nat → Except WriteError (DB × List (Nat × IfExists))
  | db, [], _ => .ok (db, [])
  | db, c :: rest, i =>
    match to_sql db name c (if i > 0 then .append else policy) (failAt i) with
    | .error e => .error e
    | .ok db' =>
      match runChunks name policy failAt db' rest (i + 1) with
      | .error e => .error e
      | .ok (dbf, tr) => .ok (dbf, (i, if i > 0 then IfExists.append else policy) :: tr)

/-- import_in_chunks: run every batch inside one transaction scope; any
failure re-raises after rollback. -/
def import_in_chunks (db : DB) (name : String) (chunks : List Table)
    (policy : IfExists) (failAt : Nat → Bool) : Except WriteError DB :=
  match runChunks name policy failAt db chunks 0 with
  | .ok (db', _) => .ok db'
  | .error e => .error e

/-- The destination state after a chunked import returns: the committed state
on success, the pre-call state on abort (the transaction scope rolls back). -/
def chunkedFinalDB (db : DB) (name : String) (chunks : List Table)
    (policy : IfExists) (failAt : Nat → Bool) : DB :=
  match import_in_chunks db name chunks policy failAt with
  | .ok db' => db'
  | .error _ => db

/-- The single-shot path: one to_sql call with the invocation's policy. -/
def single_shot (db : DB) (name : String) (frame : Table) (policy : IfExists) :
    Except WriteError DB :=
  to_sql db name frame policy false

/-- The destination state after a single-shot load (one atomic statement). -/
def singleShotFinalDB (db : DB) (name : String) (frame : Table)
    (policy : IfExists) : DB :=
  match single_shot db name frame policy with
  | .ok db' => db'
  | .error _ => db

/-- Split rows into consecutive batches of at most `n` rows, as the
`chunksize=n` reader of pandas yields them. -/
def chunksOf (n : Nat) (l : List (List String)) : List (List (List String)) :=
  if l.isEmpty || n == 0 then []
  else l.take n :: chunksOf n (l.drop n)
termination_by l.length
decreasing_by
  simp only [Bool.or_eq_true, List.isEmpty_iff, beq_iff_eq, not_or] at *
  simp only [List.length_drop]
  rcases l with _ | ⟨a, l⟩
  · simp_all
  · simp only [List.length_cons]
    omega

/-- The batches of a frame under a given chunk size: each batch carries the
frame's columns and one slice of its rows. -/
def chunkFrames (csize : Nat) (frame : Table) : List Table :=
  (chunksOf csize frame.rows).map (fun rs => ⟨frame.cols, rs⟩)

/-! ### Name sanitizer (source: sanitize_table_name) -/

/-- The regex substitution: every character outside `[a-zA-Z0-9_]`
becomes an underscore. -/
def subNonWord (l : List Char) : List Char :=
  l.map (fun c => if isWordChar c then c else '_')

/-- Python `str.strip` with argument underscore: remove leading and trailing
underscores. -/
def stripUnd (l : List Char) : List Char :=
  ((l.dropWhile (fun c => c == '_')).reverse.dropWhile (fun c => c == '_')).reverse

/-- The guard `not name or (not name[0].isalpha() and name[0] != "_")`. -/
def needsSheetMark (l : List Char) : Bool :=
  match l with
  | [] => true
  | c :: _ => !((isAsciiUpper c || isAsciiLower c) || c == '_')

/-- The characters of the literal prepended when the guard fires. -/
def sheetMark : List Char := ['s', 'h', 'e', 'e', 't', '_']

/-- sanitize_table_name at the default maximum length 63 (every call site
uses the default): substitute, strip underscores, maybe prepend the sheet
mark, truncate to 63 characters, lower-case. -/
def sanitize_table_name (name : List Char) : List Char :=
  (((if needsSheetMark (stripUnd (subNonWord name)) then
      sheetMark ++ stripUnd (subNonWord name)
    else stripUnd (subNonWord name)).take 63).map Char.toLower)

/-! ### Multi-sheet workbook import (source: import_excel_file) -/

/-- The configuration flags consumed by the excel import loop. -/
structure ImportArgs where
  ifExists : IfExists
  strictSchema : Bool

/-- Some printable name for a SQL type tag (to_sql dtype mapping). -/
def sqlTypeName : SqlType → String
  | .bigint => "BIGINT"
  | .doublePrecision => "DOUBLE PRECISION"
  | .boolean => "BOOLEAN"
  | .timestamp => "TIMESTAMP"
  | .text => "TEXT"

/-- The rows of a frame as written by to_sql; a missing cell serialises to
the empty string (cell serialisation details do not matter downstream). -/
def dfRows (df : DataFrame) : List (List String) :=
  (List.range df.nrows).map (fun r =>
    df.cols.map (fun c => (c.col.cells.getD r none).getD ""))

/-- The destination table created by to_sql for a frame: the frame's column
names (a null header prints as nan) with their inferred types, and its rows. -/
def frameOf (prs : Parsers) (df : DataFrame) : Table :=
  ⟨df.cols.map (fun c => (c.name.getD "nan", sqlTypeName (infer_column_type prs c.col))),
   dfRows df⟩

/-- The outcome of the excel import loop: final destination state, names of
the tables imported, and the uncaught error, if one aborted the loop. -/
structure ExcelResult where
  db : DB
  imported : List String
  err : Option (List String × List (Option String))
deriving DecidableEq, Repr

/-- The full destination name of a sheet: requested table name, underscore,
sanitized sheet name. -/
def sheetTableName (baseTable : String) (sname : List Char) : String :=
  baseTable ++ "_" ++ String.mk (sanitize_table_name sname)

/-- import_excel_file: per sheet, skip invalid sheets; skip (continue) on an
if-exists=fail conflict; under strict schema, a compatibility failure
propagates out of the loop (it is raised outside the try block), aborting the
remaining sheets; a to_sql failure is caught and the loop continues. Sheet
`i`'s write failure is injected by `writeFail i`. -/
def import_excel_file (prs : Parsers) (args : ImportArgs) (baseTable : String)
    (writeFail : Nat → Bool) :
    DB → List (List Char × DataFrame) → Nat → ExcelResult
  | db, [], _ => ⟨db, [], none⟩
  | db, (sname, df) :: rest, i =>
    if is_valid_sheet df = false then
      import_excel_file prs args baseTable writeFail db rest (i + 1)
    else if args.ifExists = IfExists.fail ∧
        table_exists db (sheetTableName baseTable sname) then
      import_excel_file prs args baseTable writeFail db rest (i + 1)
    else
      match (if args.strictSchema ∧ table_exists db (sheetTableName baseTable sname) then
          check_schema_compatibility db (sheetTableName baseTable sname)
            (infer_schema prs df)
        else .ok true) with
      | .error e => ⟨db, [], some e⟩
      | .ok _ =>
        match to_sql db (sheetTableName baseTable sname) (frameOf prs df)
            args.ifExists (writeFail i) with
        | .ok db' =>
          let r := import_excel_file prs args baseTable writeFail db' rest (i + 1)
          ⟨r.db, sheetTableName baseTable sname :: r.imported, r.err⟩
        | .error _ =>
          import_excel_file prs args baseTable writeFail db rest (i + 1)

/-! ### Dry-run analysis (source: dry_run_analysis) -/

/-- The shapes a source file can take, as seen by dry_run_analysis after the
reader ran: an openable workbook with its sheets, a workbook that fails to
open, a readable delimited file, a file whose load raises. -/
inductive SourceFile
  | workbook (sheets : List (List Char × DataFrame))
  | workbookBad
  | csv (path : List Char) (sizeBytes : Nat) (df : DataFrame)
  | csvBad

/-- The per-sheet report line of the dry run: destination name, row count,
column count and inferred schema for a valid sheet, nothing for a skipped
sheet. -/
def analyze_sheet (prs : Parsers) (baseTable : String) (sname : List Char)
    (df : DataFrame) : Option (String × Nat × Nat × List (Option String × SqlType)) :=
  if is_valid_sheet df then
    some (sheetTableName baseTable sname, df.nrows, df.cols.length, infer_schema prs df)
  else none

/-- dry_run_analysis: reports without touching the destination. The workbook
branch analyses each sheet and returns the success signal unconditionally;
the delimited branch validates the frame and fails only when validation (or
the reader) raises. The destination handle is received but never consulted. -/
def dry_run_analysis (_dest : DB) (prs : Parsers) (src : SourceFile)
    (baseTable : String) :
    Bool × List (Option (String × Nat × Nat × List (Option String × SqlType))) :=
  match src with
  | .workbook sheets =>
    (true, sheets.map (fun p => analyze_sheet prs baseTable p.1 p.2))
  | .workbookBad => (false, [])
  | .csv _ _ df =>
    match validate_dataframe df with
    | .ok _ => (true, [])
    | .error _ => (false, [])
  | .csvBad => (false, [])

/-! ### Concrete fixtures used by witnesses and counterexamples -/

/-- Parsers under which no string parses as a float or a date. -/
def noParsers : Parsers := ⟨fun _ => false, fun _ => false⟩

/-- An object column of integer-formatted strings with one missing value. -/
def colInts : Column := ⟨Dtype.objectD, [some "12", none, some "-3"]⟩

/-- An object column whose values are all missing. -/
def colAllNa : Column := ⟨Dtype.objectD, [none, none]⟩

/-! ### Theorems -/

/-- C9: the chunked path is taken iff the lower-cased path ends in the csv
suffix and the byte size strictly exceeds 200 MiB; spreadsheet sheets always
use the single-shot call. -/
theorem C9_chunk_decision (path : List Char) (sizeBytes : Nat) :
    (csv_load_method path sizeBytes = LoadMethod.chunked ↔
      csvSuffix.isSuffixOf (toLowerList path) = true ∧ 200 * 1024 * 1024 < sizeBytes) ∧
    excel_sheet_load_method = LoadMethod.singleShot := by
  refine ⟨?_, rfl⟩
  unfold csv_load_method is_large_csv
  rcases h : csvSuffix.isSuffixOf (toLowerList path) with _ | _
  · simp [h]
  · have hq : ((200 : ℚ) < (sizeBytes : ℚ) / (1024 * 1024)) ↔ 200 * 1024 * 1024 < sizeBytes := by
      rw [lt_div_iff₀ (by norm_num)]
      constructor
      · intro hlt
        exact_mod_cast hlt
      · intro hlt
        exact_mod_cast hlt
    simp only [h, Bool.not_true, Bool.false_eq_true, if_false]
    rcases hd : decide ((200 : ℚ) < (sizeBytes : ℚ) / (1024 * 1024)) with _ | _
    · simp only [Bool.false_eq_true, if_false]
      simp only [decide_eq_false_iff_not] at hd
      rw [hq] at hd
      simp [hd]
    · simp only [if_true]
      simp only [decide_eq_true_eq] at hd
      rw [hq] at hd
      simp [hd]

/-- C10: a workbook that opens yields the dry-run success signal no matter
what its sheets contain (in particular when every sheet is invalid, in which
case every report line is a skip), and the analysis result never depends on
the destination state. -/
theorem C10_dry_run_workbook (db : DB) (prs : Parsers)
    (sheets : List (List Char × DataFrame)) (baseTable : String) :
    (dry_run_analysis db prs (SourceFile.workbook sheets) baseTable).1 = true ∧
    (∀ (db' : DB) (src : SourceFile) (t : String),
      dry_run_analysis db prs src t = dry_run_analysis db' prs src t) ∧
    ((∀ p ∈ sheets, is_valid_sheet p.2 = false) →
      ((dry_run_analysis db prs (SourceFile.workbook sheets) baseTable).2.all
        (fun line => line.isNone)) = true) := by
  refine ⟨rfl, fun _ _ _ => rfl, fun h => ?_⟩
  simp only [dry_run_analysis, List.all_eq_true, List.mem_map]
  rintro line ⟨p, hp, rfl⟩
  simp [analyze_sheet, h p hp]

/-- A one-column frame: not a valid sheet (fewer than two columns). -/
def dfOneCol : DataFrame := ⟨[⟨some "a", ⟨Dtype.objectD, [some "1"]⟩⟩], 1⟩

/-- C10 witness: a concrete workbook whose only sheet is invalid is still a
successful dry run with one skipped line. -/
theorem C10_dry_run_workbook_witness :
    (dry_run_analysis [] noParsers (SourceFile.workbook [(['s'], dfOneCol)]) "t").1 = true ∧
    ((dry_run_analysis [] noParsers (SourceFile.workbook [(['s'], dfOneCol)]) "t").2.all
      (fun line => line.isNone)) = true := by
  refine ⟨(C10_dry_run_workbook [] noParsers [(['s'], dfOneCol)] "t").1, ?_⟩
  exact (C10_dry_run_workbook [] noParsers [(['s'], dfOneCol)] "t").2.2 (by decide)

/-- C5: on a column whose native dtype is none of the trusted four, the
inferencer samples the first 100 non-missing stringified values and tests
all-integer, then all-float, then all-datetime, in that order, defaulting to
TEXT; an empty sample yields TEXT. -/
theorem C5_infer_cascade (prs : Parsers) (col : Column)
    (h : col.dtype = Dtype.objectD) :
    sampleOf col = (col.cells.filterMap id).take 100 ∧
    (sampleOf col = [] → infer_column_type prs col = SqlType.text) ∧
    (sampleOf col ≠ [] → (sampleOf col).all isIntString = true →
      infer_column_type prs col = SqlType.bigint) ∧
    (sampleOf col ≠ [] → (sampleOf col).all isIntString = false →
      (sampleOf col).all prs.floatOk = true →
      infer_column_type prs col = SqlType.doublePrecision) ∧
    (sampleOf col ≠ [] → (sampleOf col).all isIntString = false →
      (sampleOf col).all prs.floatOk = false →
      (sampleOf col).all prs.dateOk = true →
      infer_column_type prs col = SqlType.timestamp) ∧
    (sampleOf col ≠ [] → (sampleOf col).all isIntString = false →
      (sampleOf col).all prs.floatOk = false →
      (sampleOf col).all prs.dateOk = false →
      infer_column_type prs col = SqlType.text) := by
  unfold infer_column_type
  rw [h]
  refine ⟨rfl, ?_, ?_, ?_, ?_, ?_⟩
  · intro he
    simp [he]
  · intro hne hall
    simp [List.isEmpty_iff, hne, hall]
  · intro hne hint hfl
    simp [List.isEmpty_iff, hne, hint, hfl]
  · intro hne hint hfl hdt
    simp [List.isEmpty_iff, hne, hint, hfl, hdt]
  · intro hne hint hfl hdt
    simp [List.isEmpty_iff, hne, hint, hfl, hdt]

/-- C5 witness: the cascade evaluated at concrete columns. -/
theorem C5_infer_cascade_witness :
    infer_column_type noParsers colInts = SqlType.bigint ∧
    infer_column_type noParsers colAllNa = SqlType.text := by
  constructor
  · exact (C5_infer_cascade noParsers colInts rfl).2.2.1 (by decide) (by decide)
  · exact (C5_infer_cascade noParsers colAllNa rfl).2.1 (by decide)

/-- Helper: list containment tested with a lawful boolean equality is list
membership. -/
theorem contains_true_iff {α : Type} [BEq α] [LawfulBEq α] (l : List α) (a : α) :
    l.contains a = true ↔ a ∈ l :=
  List.elem_iff

/-- Helper: the per-name validation loop accepts exactly the name lists in
which every stripped name is non-blank and free of the bad characters. -/
theorem validateNames_ok_iff (ns : List String) :
    validateNames ns = Except.ok true ↔
      ∀ n ∈ ns, pyStrip n.toList ≠ [] ∧ ∀ ch ∈ pyStrip n.toList, ch ∉ badChars := by
  induction ns with
  | nil => simp [validateNames]
  | cons n rest ih =>
    simp only [validateNames]
    by_cases h1 : (pyStrip n.toList).isEmpty
    · rw [if_pos h1]
      rw [List.isEmpty_iff] at h1
      constructor
      · intro h
        exact absurd h (by simp)
      · intro h
        exact absurd h1 (h n (by simp)).1
    · rw [if_neg h1]
      by_cases h2 : (pyStrip n.toList).any (fun c => badChars.contains c)
      · rw [if_pos h2]
        constructor
        · intro h
          exact absurd h (by simp)
        · intro h
          rw [List.any_eq_true] at h2
          obtain ⟨c, hc, hcc⟩ := h2
          rw [contains_true_iff] at hcc
          exact absurd hcc ((h n (by simp)).2 c hc)
      · rw [if_neg h2]
        rw [ih]
        constructor
        · intro h
          intro m hm
          rcases List.mem_cons.mp hm with rfl | hm'
          · refine ⟨by simpa [List.isEmpty_iff] using h1, ?_⟩
            intro ch hch hbad
            apply h2
            rw [List.any_eq_true]
            exact ⟨ch, hch, (contains_true_iff _ _).mpr hbad⟩
          · exact h m hm'
        · intro h m hm
          exact h m (List.mem_cons_of_mem n hm)

/-- C8 (amended): validate_dataframe accepts exactly the frames with at
least one row, at least one column, and all column names non-null, non-blank
after stripping, and free of control characters after stripping. -/
theorem C8_validate_characterization (df : DataFrame) :
    validate_dataframe df = Except.ok true ↔
      (df.nrows ≠ 0 ∧ df.cols ≠ [] ∧
        ∀ c ∈ df.cols, ∃ s, c.name = some s ∧ pyStrip s.toList ≠ [] ∧
          ∀ ch ∈ pyStrip s.toList, ch ∉ badChars) := by
  unfold validate_dataframe
  by_cases h1 : df.nrows = 0 ∨ df.cols.length = 0
  · rw [if_pos h1]
    constructor
    · intro h
      exact absurd h (by simp)
    · rintro ⟨ha, hb, _⟩
      rcases h1 with h | h
      · exact absurd h ha
      · exact absurd (List.length_eq_zero.mp h) hb
  · rw [if_neg h1]
    push_neg at h1
    by_cases h2 : df.cols.any (fun c => c.name.isNone)
    · rw [if_pos h2]
      constructor
      · intro h
        exact absurd h (by simp)
      · rintro ⟨_, _, hall⟩
        rw [List.any_eq_true] at h2
        obtain ⟨c, hc, hnone⟩ := h2
        obtain ⟨s, hs, _⟩ := hall c hc
        rw [hs] at hnone
        exact absurd hnone (by simp)
    · rw [if_neg h2]
      rw [validateNames_ok_iff]
      constructor
      · intro h
        refine ⟨h1.1, fun hnil => h1.2 (by simp [hnil]), ?_⟩
        intro c hc
        have hsome : c.name.isSome := by
          by_contra hn
          apply h2
          rw [List.any_eq_true]
          exact ⟨c, hc, by simpa [Option.isNone_iff_eq_none] using
            Option.not_isSome_iff_eq_none.mp hn⟩
        obtain ⟨s, hs⟩ := Option.isSome_iff_exists.mp hsome
        have hloop := h (c.name.getD "") (List.mem_map_of_mem _ hc)
        rw [hs] at hloop
        exact ⟨s, hs, by simpa using hloop⟩
      · rintro ⟨_, _, hall⟩
        intro n hn
        rw [List.mem_map] at hn
        obtain ⟨c, hc, rfl⟩ := hn
        obtain ⟨s, hs, hne, hb⟩ := hall c hc
        rw [hs]
        exact ⟨by simpa using hne, by simpa using hb⟩

/-- A frame whose single column name carries a leading tab character. -/
def dfTabName : DataFrame := ⟨[⟨some "\ta", ⟨Dtype.objectD, [some "1"]⟩⟩], 1⟩

/-- A pandas frame with one row worth of index but zero columns. -/
def dfRowsNoCols : DataFrame := ⟨[], 1⟩

/-- C8 counterexample: a column name containing a TAB control character is
accepted (the name is stripped before the control-character check), and a
frame with a row but no columns is rejected as empty even though all (zero)
column names are valid. -/
theorem C8_counterexample :
    validate_dataframe dfTabName = Except.ok true ∧
    validate_dataframe dfRowsNoCols = Except.error "file is empty" :=
  ⟨rfl, rfl⟩

/-- Helper: the missing set is empty iff every existing column name occurs
among the new schema's keys. -/
theorem missingCols_nil_iff (cols : List (String × String))
    (schema : List (Option String × SqlType)) :
    missingCols cols schema = [] ↔
      ∀ n ∈ cols.map Prod.fst, some n ∈ schema.map Prod.fst := by
  simp only [missingCols, List.filter_eq_nil_iff, Bool.not_eq_true',
    Bool.not_eq_false]
  constructor
  · intro h n hn
    have := h n hn
    rwa [contains_true_iff] at this
  · intro h n hn
    rw [contains_true_iff]
    exact h n hn

/-- Helper: the extra set is empty iff every new schema key is the name of
an existing column. -/
theorem extraCols_nil_iff (cols : List (String × String))
    (schema : List (Option String × SqlType)) :
    extraCols cols schema = [] ↔
      ∀ k ∈ schema.map Prod.fst, ∃ n ∈ cols.map Prod.fst, k = some n := by
  simp only [extraCols, List.filter_eq_nil_iff]
  constructor
  · intro h k hk
    have hthis := h k hk
    rcases k with _ | s
    · simp at hthis
    · replace hthis : ¬(!(cols.map Prod.fst).contains s) = true := hthis
      rw [Bool.not_eq_true', Bool.not_eq_false, contains_true_iff] at hthis
      exact ⟨s, hthis, rfl⟩
  · intro h k hk
    obtain ⟨n, hn, rfl⟩ := h k hk
    show ¬(!(cols.map Prod.fst).contains n) = true
    rw [Bool.not_eq_true', Bool.not_eq_false, contains_true_iff]
    exact hn

/-- C6: schema compatibility is trivially true for an absent table; for an
existing table it fails exactly when the existing column-name set and the
schema key set differ, and the outcome (including the reported sets) depends
only on the column names, never on the column types. -/
theorem C6_schema_check (db : DB) (name : String)
    (schema : List (Option String × SqlType)) :
    (lookupTable db name = none →
      check_schema_compatibility db name schema = Except.ok true) ∧
    (∀ t, lookupTable db name = some t →
      ((∃ e, check_schema_compatibility db name schema = Except.error e) ↔
        ¬ ((∀ n ∈ t.cols.map Prod.fst, some n ∈ schema.map Prod.fst) ∧
           (∀ k ∈ schema.map Prod.fst, ∃ n ∈ t.cols.map Prod.fst, k = some n)))) ∧
    (∀ (db' : DB) (t t' : Table) (schema' : List (Option String × SqlType)),
      lookupTable db name = some t → lookupTable db' name = some t' →
      t.cols.map Prod.fst = t'.cols.map Prod.fst →
      schema.map Prod.fst = schema'.map Prod.fst →
      check_schema_compatibility db name schema =
        check_schema_compatibility db' name schema') := by
  refine ⟨?_, ?_, ?_⟩
  · intro h
    unfold check_schema_compatibility
    rw [h]
  · intro t ht
    have hred : check_schema_compatibility db name schema =
        (if !(missingCols t.cols schema).isEmpty || !(extraCols t.cols schema).isEmpty then
          Except.error (missingCols t.cols schema, extraCols t.cols schema)
        else Except.ok true) := by
      unfold check_schema_compatibility
      rw [ht]
    rw [hred, ← missingCols_nil_iff, ← extraCols_nil_iff]
    by_cases hc : missingCols t.cols schema = [] ∧ extraCols t.cols schema = []
    · rw [if_neg (by simp [hc.1, hc.2])]
      simp [hc]
    · rw [if_pos ?side]
      case side =>
        rw [Bool.or_eq_true, Bool.not_eq_true', Bool.not_eq_true']
        rcases not_and_or.mp hc with h | h
        · left
          rw [← Bool.not_eq_true, List.isEmpty_iff]
          exact h
        · right
          rw [← Bool.not_eq_true, List.isEmpty_iff]
          exact h
      simp [hc]
  · intro db' t t' schema' h1 h2 hcols hkeys
    have hm : missingCols t.cols schema = missingCols t'.cols schema' := by
      unfold missingCols
      rw [hcols, hkeys]
    have he : extraCols t.cols schema = extraCols t'.cols schema' := by
      unfold extraCols
      rw [hcols, hkeys]
    have hred1 : check_schema_compatibility db name schema =
        (if !(missingCols t.cols schema).isEmpty || !(extraCols t.cols schema).isEmpty then
          Except.error (missingCols t.cols schema, extraCols t.cols schema)
        else Except.ok true) := by
      unfold check_schema_compatibility
      rw [h1]
    have hred2 : check_schema_compatibility db' name schema' =
        (if !(missingCols t'.cols schema').isEmpty || !(extraCols t'.cols schema').isEmpty then
          Except.error (missingCols t'.cols schema', extraCols t'.cols schema')
        else Except.ok true) := by
      unfold check_schema_compatibility
      rw [h2]
    rw [hred1, hred2, hm, he]

/-- An existing table with columns a, b typed as the destination reports. -/
def db6 : DB := [("t", ⟨[("a", "BIGINT"), ("b", "TEXT")], []⟩)]

/-- The same catalog with identical column names but other reported types. -/
def db6' : DB := [("t", ⟨[("a", "VARCHAR"), ("b", "INT8")], []⟩)]

/-- A one-column schema missing column b. -/
def schema6 : List (Option String × SqlType) := [(some "a", SqlType.text)]

/-- The same schema keys with a different inferred type. -/
def schema6' : List (Option String × SqlType) := [(some "a", SqlType.bigint)]

/-- C6 witness: absent table accepted; name mismatch rejected with the
missing/extra sets; type changes alone do not alter the outcome. -/
theorem C6_schema_check_witness :
    check_schema_compatibility [] "t" schema6 = Except.ok true ∧
    check_schema_compatibility db6 "t" schema6 = Except.error (["b"], []) ∧
    check_schema_compatibility db6 "t" schema6 =
      check_schema_compatibility db6' "t" schema6' := by
  refine ⟨(C6_schema_check [] "t" schema6).1 rfl, rfl, ?_⟩
  exact (C6_schema_check db6 "t" schema6).2.2 db6'
    ⟨[("a", "BIGINT"), ("b", "TEXT")], []⟩ ⟨[("a", "VARCHAR"), ("b", "INT8")], []⟩
    schema6' rfl rfl rfl rfl

/-! ### Loader lemmas -/

/-- Helper: looking up a table immediately after setting it finds it. -/
theorem lookupTable_setTable (db : DB) (n : String) (t : Table) :
    lookupTable (setTable db n t) n = some t := by
  induction db with
  | nil => simp [setTable, lookupTable]
  | cons p rest ih =>
    obtain ⟨m, u⟩ := p
    by_cases h : m = n
    · simp [setTable, h, lookupTable]
    · simp [setTable, h, lookupTable, ih]

/-- Helper: setting the same table twice keeps only the second write. -/
theorem setTable_setTable (db : DB) (n : String) (t t' : Table) :
    setTable (setTable db n t) n t' = setTable db n t' := by
  induction db with
  | nil => simp [setTable]
  | cons p rest ih =>
    obtain ⟨m, u⟩ := p
    by_cases h : m = n
    · simp [setTable, h]
    · simp [setTable, h, ih]

/-- Helper: rewriting a table to its current contents changes nothing. -/
theorem setTable_self (db : DB) (n : String) (t : Table)
    (h : lookupTable db n = some t) : setTable db n t = db := by
  induction db with
  | nil => simp [lookupTable] at h
  | cons p rest ih =>
    obtain ⟨m, u⟩ := p
    by_cases hm : m = n
    · simp only [lookupTable, if_pos hm] at h
      cases h
      simp [setTable, hm]
    · simp only [lookupTable, if_neg hm] at h
      simp [setTable, hm, ih h]

/-- Helper: concatenating the batches of a chunked row list restores it. -/
theorem chunksOf_flatten (n : Nat) (l : List (List String)) (hn : 0 < n) :
    (chunksOf n l).flatten = l := by
  generalize hlen : l.length = len
  induction len using Nat.strong_induction_on generalizing l with
  | _ len ih =>
    rw [chunksOf]
    by_cases he : l.isEmpty
    · rw [if_pos (by simp [he])]
      rw [List.isEmpty_iff] at he
      simp [he]
    · have hcond : ¬(l.isEmpty || n == 0) = true := by
        simp only [Bool.or_eq_true, beq_iff_eq]
        push_neg
        exact ⟨he, by omega⟩
      rw [if_neg hcond]
      rw [List.isEmpty_iff] at he
      have hlp : 0 < l.length := List.length_pos.mpr he
      have hdl : (l.drop n).length < len := by
        rw [← hlen]
        rw [List.length_drop]
        omega
      rw [List.flatten_cons, ih (l.drop n).length hdl (l.drop n) rfl]
      exact List.take_append_drop n l

/-- The concatenation of the rows carried by a list of batch frames. -/
def joinRows (chunks : List Table) : List (List String) :=
  (chunks.map Table.rows).flatten

/-- Helper: the batches of a frame jointly carry exactly the frame's rows. -/
theorem joinRows_chunkFrames (csize : Nat) (frame : Table) (h : 0 < csize) :
    joinRows (chunkFrames csize frame) = frame.rows := by
  unfold joinRows chunkFrames
  rw [List.map_map]
  rw [show (Table.rows ∘ fun rs => (⟨frame.cols, rs⟩ : Table)) = id from rfl, List.map_id]
  exact chunksOf_flatten csize frame.rows h

/-- Helper: if the failure oracle fires on any batch index of a run, the run
returns an error. -/
theorem runChunks_error_of_fail (name : String) (policy : IfExists)
    (failAt : Nat → Bool) :
    ∀ (chunks : List Table) (db : DB) (i : Nat),
      (∃ k, k < chunks.length ∧ failAt (i + k) = true) →
      ∃ e, runChunks name policy failAt db chunks i = Except.error e := by
  intro chunks
  induction chunks with
  | nil =>
    rintro db i ⟨k, hk, _⟩
    simp at hk
  | cons c rest ih =>
    rintro db i ⟨k, hk, hf⟩
    by_cases hi : failAt i = true
    · have hts : to_sql db name c (if i > 0 then IfExists.append else policy)
          (failAt i) = Except.error WriteError.externalFailure := by
        unfold to_sql
        rw [if_pos hi]
      exact ⟨WriteError.externalFailure, by simp only [runChunks, hts]⟩
    · rcases k with _ | k'
      · rw [Nat.add_zero] at hf
        exact absurd hf hi
      · cases hts : to_sql db name c (if i > 0 then IfExists.append else policy)
            (failAt i) with
        | error e => exact ⟨e, by simp only [runChunks, hts]⟩
        | ok db' =>
          obtain ⟨e, he⟩ := ih db' (i + 1)
            ⟨k', by simpa using hk, by rw [show i + 1 + k' = i + (k' + 1) from by omega]; exact hf⟩
          exact ⟨e, by simp only [runChunks, hts, he]⟩

/-- C1: if any batch write of a chunked import fails, the whole call fails
and the destination is exactly its pre-call state (full rollback of the one
transaction scope). -/
theorem C1_chunked_rollback (db : DB) (name : String) (chunks : List Table)
    (policy : IfExists) (failAt : Nat → Bool)
    (h : ∃ k, k < chunks.length ∧ failAt k = true) :
    (∃ e, import_in_chunks db name chunks policy failAt = Except.error e) ∧
    chunkedFinalDB db name chunks policy failAt = db := by
  obtain ⟨e, he⟩ := runChunks_error_of_fail name policy failAt chunks db 0
    (by obtain ⟨k, hk, hf⟩ := h; exact ⟨k, hk, by simpa using hf⟩)
  have hi : import_in_chunks db name chunks policy failAt = Except.error e := by
    unfold import_in_chunks
    rw [he]
  refine ⟨⟨e, hi⟩, ?_⟩
  unfold chunkedFinalDB
  rw [hi]

/-- A failure oracle that fails every write. -/
def alwaysFail : Nat → Bool := fun _ => true

/-- The in-memory frame used by the loader witnesses. -/
def frameW : Table := ⟨[("a", "TEXT")], [["1"], ["2"], ["3"]]⟩

/-- A destination holding prior contents for table t. -/
def dbW : DB := [("t", ⟨[("a", "TEXT")], [["x"]]⟩)]

/-- The three single-row batches of the witness frame. -/
def frames3 : List Table :=
  [⟨[("a", "TEXT")], [["1"]]⟩, ⟨[("a", "TEXT")], [["2"]]⟩, ⟨[("a", "TEXT")], [["3"]]⟩]

/-- C1 witness: a concrete failing chunked import errors and leaves the
destination untouched. -/
theorem C1_chunked_rollback_witness :
    import_in_chunks dbW "t" frames3 IfExists.replace alwaysFail =
      Except.error WriteError.externalFailure ∧
    chunkedFinalDB dbW "t" frames3 IfExists.replace alwaysFail = dbW := by
  refine ⟨rfl, ?_⟩
  exact (C1_chunked_rollback dbW "t" frames3 IfExists.replace alwaysFail
    ⟨0, by decide, rfl⟩).2

/-- Helper: a successful run writes batch indices in order starting at the
given index, with append mode everywhere except a zero index, which uses the
invocation's policy. -/
theorem runChunks_trace (name : String) (policy : IfExists) (failAt : Nat → Bool) :
    ∀ (chunks : List Table) (db db' : DB) (i : Nat) (tr : List (Nat × IfExists)),
      runChunks name policy failAt db chunks i = Except.ok (db', tr) →
      tr.map Prod.fst = List.range' i chunks.length ∧
      ∀ p ∈ tr, p.2 = if p.1 > 0 then IfExists.append else policy := by
  intro chunks
  induction chunks with
  | nil =>
    intro db db' i tr h
    simp only [runChunks] at h
    cases h
    simp [List.range']
  | cons c rest ih =>
    intro db db' i tr h
    simp only [runChunks] at h
    cases hts : to_sql db name c (if i > 0 then IfExists.append else policy)
        (failAt i) with
    | error e => rw [hts] at h; simp at h
    | ok dbm =>
      rw [hts] at h
      simp only at h
      cases hrc : runChunks name policy failAt dbm rest (i + 1) with
      | error e => rw [hrc] at h; simp at h
      | ok pr =>
        rw [hrc] at h
        obtain ⟨dbf, tr'⟩ := pr
        simp only [Except.ok.injEq, Prod.mk.injEq] at h
        obtain ⟨rfl, rfl⟩ := h
        obtain ⟨h1, h2⟩ := ih dbm dbf (i + 1) tr' hrc
        constructor
        · simp only [List.map_cons, h1, List.length_cons]
          rw [List.range'_succ]
        · intro p hp
          rcases List.mem_cons.mp hp with rfl | hp'
          · rfl
          · exact h2 p hp'

/-- C2: on a successful chunked import the batches are written in strictly
increasing index order 0, 1, ..., n-1, batch 0 with the invocation's
if-exists policy and every later batch with append mode. -/
theorem C2_chunk_write_modes (db db' : DB) (name : String) (chunks : List Table)
    (policy : IfExists) (failAt : Nat → Bool) (tr : List (Nat × IfExists))
    (h : runChunks name policy failAt db chunks 0 = Except.ok (db', tr)) :
    tr.map Prod.fst = List.range chunks.length ∧
    ∀ p ∈ tr, p.2 = if p.1 = 0 then policy else IfExists.append := by
  obtain ⟨h1, h2⟩ := runChunks_trace name policy failAt chunks db db' 0 tr h
  refine ⟨by rw [List.range_eq_range']; exact h1, ?_⟩
  intro p hp
  have hmode := h2 p hp
  rcases Nat.eq_zero_or_pos p.1 with hz | hpos
  · rw [hz] at hmode ⊢
    simpa using hmode
  · rw [if_pos hpos] at hmode
    rw [if_neg (by omega)]
    exact hmode

/-- The committed destination of the successful witness run. -/
def db3 : DB := [("t", ⟨[("a", "TEXT")], [["1"], ["2"], ["3"]]⟩)]

/-- The write trace of the successful witness run. -/
def trace3 : List (Nat × IfExists) :=
  [(0, IfExists.replace), (1, IfExists.append), (2, IfExists.append)]

/-- C2 witness: the concrete three-batch run writes indices 0, 1, 2 with
replace mode only on batch 0. -/
theorem C2_chunk_write_modes_witness :
    trace3.map Prod.fst = List.range frames3.length ∧
    trace3.all (fun p => p.2 ==
      if p.1 == 0 then IfExists.replace else IfExists.append) = true := by
  have h := C2_chunk_write_modes dbW db3 "t" frames3 IfExists.replace
    (fun _ => false) trace3 rfl
  exact ⟨h.1, by decide⟩

/-- Helper: from index 1 on, a failure-free run over an existing table
appends the concatenation of all remaining batches' rows. -/
theorem runChunks_append_all (name : String) (policy : IfExists) :
    ∀ (chunks : List Table) (db : DB) (t : Table) (i : Nat), 0 < i →
      lookupTable db name = some t →
      ∃ tr, runChunks name policy (fun _ => false) db chunks i =
        Except.ok (setTable db name ⟨t.cols, t.rows ++ joinRows chunks⟩, tr) := by
  intro chunks
  induction chunks with
  | nil =>
    intro db t i hi hl
    refine ⟨[], ?_⟩
    simp only [runChunks, joinRows, List.map_nil, List.flatten_nil, List.append_nil]
    show Except.ok (db, ([] : List (Nat × IfExists))) =
      Except.ok (setTable db name t, ([] : List (Nat × IfExists)))
    rw [setTable_self db name t hl]
  | cons c rest ih =>
    intro db t i hi hl
    have hts : to_sql db name c (if i > 0 then IfExists.append else policy) false =
        Except.ok (setTable db name ⟨t.cols, t.rows ++ c.rows⟩) := by
      rw [if_pos hi]
      unfold to_sql
      rw [if_neg (by simp)]
      rw [hl]
    obtain ⟨tr, htr⟩ := ih (setTable db name ⟨t.cols, t.rows ++ c.rows⟩)
      ⟨t.cols, t.rows ++ c.rows⟩ (i + 1) (by omega)
      (lookupTable_setTable db name ⟨t.cols, t.rows ++ c.rows⟩)
    refine ⟨(i, if i > 0 then IfExists.append else policy) :: tr, ?_⟩
    simp only [runChunks, hts, htr]
    rw [setTable_setTable]
    rw [show joinRows (c :: rest) = c.rows ++ joinRows rest from by
      simp [joinRows]]
    rw [← List.append_assoc]

/-- Helper: a nonempty row list splits into a first batch and the batches of
the remaining rows. -/
theorem chunksOf_cons_of_ne (csize : Nat) (rows : List (List String))
    (hcs : 0 < csize) (hne : rows ≠ []) :
    chunksOf csize rows = rows.take csize :: chunksOf csize (rows.drop csize) := by
  rw [chunksOf]
  rw [if_neg ?_]
  simp only [Bool.or_eq_true, beq_iff_eq, List.isEmpty_iff]
  push_neg
  exact ⟨hne, by omega⟩

/-- Helper: a failure-free chunked import whose first batch write succeeds
and produces table contents T0 commits T0 extended with all remaining rows. -/
theorem chunkedFinalDB_of_first (db : DB) (name : String) (frame : Table)
    (policy : IfExists) (csize : Nat) (T0 : Table)
    (hcs : 0 < csize) (hne : frame.rows ≠ [])
    (hfirst : to_sql db name ⟨frame.cols, frame.rows.take csize⟩ policy false =
      Except.ok (setTable db name T0)) :
    chunkedFinalDB db name (chunkFrames csize frame) policy (fun _ => false) =
      setTable db name ⟨T0.cols, T0.rows ++ frame.rows.drop csize⟩ := by
  have hchunks : chunkFrames csize frame =
      (⟨frame.cols, frame.rows.take csize⟩ : Table) ::
        chunkFrames csize ⟨frame.cols, frame.rows.drop csize⟩ := by
    unfold chunkFrames
    rw [chunksOf_cons_of_ne csize frame.rows hcs hne]
    rfl
  have hjoin : joinRows (chunkFrames csize ⟨frame.cols, frame.rows.drop csize⟩) =
      frame.rows.drop csize :=
    joinRows_chunkFrames csize ⟨frame.cols, frame.rows.drop csize⟩ hcs
  obtain ⟨tr, htr⟩ := runChunks_append_all name policy
    (chunkFrames csize ⟨frame.cols, frame.rows.drop csize⟩)
    (setTable db name T0) T0 1 (by omega) (lookupTable_setTable db name T0)
  rw [hjoin] at htr
  unfold chunkedFinalDB import_in_chunks
  rw [hchunks]
  have hfirst0 : to_sql db name ⟨frame.cols, frame.rows.take csize⟩
      (if 0 > 0 then IfExists.append else policy) ((fun _ => false) 0) =
      Except.ok (setTable db name T0) := by
    simpa using hfirst
  simp only [runChunks, hfirst0, htr]
  rw [setTable_setTable]

/-- C3: for every destination state, every policy and every chunk size, a
failure-free chunked load of a (validated, hence nonempty) frame leaves the
destination in exactly the state of a single-shot load of the same frame:
same tables, same columns, same rows. -/
theorem C3_chunked_equals_single_shot (db : DB) (name : String) (frame : Table)
    (policy : IfExists) (csize : Nat) (hcs : 0 < csize) (hne : frame.rows ≠ []) :
    chunkedFinalDB db name (chunkFrames csize frame) policy (fun _ => false) =
    singleShotFinalDB db name frame policy := by
  rcases hl : lookupTable db name with _ | t
  · have hfirst : to_sql db name ⟨frame.cols, frame.rows.take csize⟩ policy false =
        Except.ok (setTable db name ⟨frame.cols, frame.rows.take csize⟩) := by
      unfold to_sql
      rw [if_neg (by simp)]
      rw [hl]
    rw [chunkedFinalDB_of_first db name frame policy csize
      ⟨frame.cols, frame.rows.take csize⟩ hcs hne hfirst]
    have hsingle : single_shot db name frame policy =
        Except.ok (setTable db name ⟨frame.cols, frame.rows⟩) := by
      unfold single_shot to_sql
      rw [if_neg (by simp)]
      rw [hl]
    unfold singleShotFinalDB
    rw [hsingle]
    rw [show frame.rows.take csize ++ frame.rows.drop csize = frame.rows from
      List.take_append_drop csize frame.rows]
  · rcases policy with _ | _ | _
    · -- replace: the first batch recreates the table
      have hfirst : to_sql db name ⟨frame.cols, frame.rows.take csize⟩
          IfExists.replace false =
          Except.ok (setTable db name ⟨frame.cols, frame.rows.take csize⟩) := by
        unfold to_sql
        rw [if_neg (by simp)]
        rw [hl]
      rw [chunkedFinalDB_of_first db name frame IfExists.replace csize
        ⟨frame.cols, frame.rows.take csize⟩ hcs hne hfirst]
      have hsingle : single_shot db name frame IfExists.replace =
          Except.ok (setTable db name ⟨frame.cols, frame.rows⟩) := by
        unfold single_shot to_sql
        rw [if_neg (by simp)]
        rw [hl]
      unfold singleShotFinalDB
      rw [hsingle]
      rw [show frame.rows.take csize ++ frame.rows.drop csize = frame.rows from
        List.take_append_drop csize frame.rows]
    · -- append: both paths extend the existing rows
      have hfirst : to_sql db name ⟨frame.cols, frame.rows.take csize⟩
          IfExists.append false =
          Except.ok (setTable db name ⟨t.cols, t.rows ++ frame.rows.take csize⟩) := by
        unfold to_sql
        rw [if_neg (by simp)]
        rw [hl]
      rw [chunkedFinalDB_of_first db name frame IfExists.append csize
        ⟨t.cols, t.rows ++ frame.rows.take csize⟩ hcs hne hfirst]
      have hsingle : single_shot db name frame IfExists.append =
          Except.ok (setTable db name ⟨t.cols, t.rows ++ frame.rows⟩) := by
        unfold single_shot to_sql
        rw [if_neg (by simp)]
        rw [hl]
      unfold singleShotFinalDB
      rw [hsingle]
      rw [show (t.rows ++ frame.rows.take csize) ++ frame.rows.drop csize =
          t.rows ++ frame.rows from by
        rw [List.append_assoc, List.take_append_drop]]
    · -- fail on an existing table: both paths abort and keep the state
      have hfirst : to_sql db name ⟨frame.cols, frame.rows.take csize⟩
          IfExists.fail false = Except.error WriteError.tableExistsFail := by
        unfold to_sql
        rw [if_neg (by simp)]
        rw [hl]
      have hchunks : chunkFrames csize frame =
          (⟨frame.cols, frame.rows.take csize⟩ : Table) ::
            chunkFrames csize ⟨frame.cols, frame.rows.drop csize⟩ := by
        unfold chunkFrames
        rw [chunksOf_cons_of_ne csize frame.rows hcs hne]
        rfl
      have hfirst0 : to_sql db name ⟨frame.cols, frame.rows.take csize⟩
          (if 0 > 0 then IfExists.append else IfExists.fail) ((fun _ => false) 0) =
          Except.error WriteError.tableExistsFail := by
        simpa using hfirst
      have hsingle : single_shot db name frame IfExists.fail =
          Except.error WriteError.tableExistsFail := by
        unfold single_shot to_sql
        rw [if_neg (by simp)]
        rw [hl]
      unfold chunkedFinalDB import_in_chunks singleShotFinalDB
      rw [hchunks, hsingle]
      simp only [runChunks, hfirst0]

/-- C3 witness: chunked and single-shot loads of a concrete three-row frame
at chunk size two agree on the final destination state. -/
theorem C3_chunked_equals_single_shot_witness :
    0 < 2 ∧ frameW.rows ≠ [] ∧
    chunkedFinalDB dbW "t" (chunkFrames 2 frameW) IfExists.replace (fun _ => false) =
      singleShotFinalDB dbW "t" frameW IfExists.replace :=
  ⟨by decide, by decide,
    C3_chunked_equals_single_shot dbW "t" frameW IfExists.replace 2
      (by decide) (by decide)⟩

/-! ### Sanitizer lemmas -/

/-- The spec's identifier character class for non-leading positions. -/
def isIdentTail (c : Char) : Bool := isAsciiLower c || isAsciiDigit c || c == '_'

/-- The spec's identifier pattern: a lower-case letter or underscore followed
by lower-case letters, digits and underscores. -/
def matchesIdent : List Char → Bool
  | [] => false
  | c :: rest => (isAsciiLower c || c == '_') && rest.all isIdentTail

/-- Helper: the code point of a small scalar round-trips through Char. -/
theorem charOfNat_toNat (n : Nat) (h : n < 55296) : (Char.ofNat n).toNat = n := by
  simp only [Char.ofNat, dif_pos (Or.inl h : Nat.isValidChar n), Char.ofNatAux,
    Char.toNat]
  rfl

/-- Helper: lower-casing an ASCII upper-case letter adds 32. -/
theorem toLower_toNat_of_upper (c : Char) (h1 : 65 ≤ c.toNat) (h2 : c.toNat ≤ 90) :
    (Char.toLower c).toNat = c.toNat + 32 := by
  simp only [Char.toLower]
  rw [if_pos ⟨h1, h2⟩]
  exact charOfNat_toNat (c.toNat + 32) (by omega)

/-- Helper: lower-casing fixes everything outside the upper-case range. -/
theorem toLower_eq_self (c : Char) (h : ¬(65 ≤ c.toNat ∧ c.toNat ≤ 90)) :
    Char.toLower c = c := by
  simp only [Char.toLower]
  rw [if_neg h]

/-- Helper: lower-casing a word character yields a tail identifier character. -/
theorem isIdentTail_toLower (c : Char) (h : isWordChar c = true) :
    isIdentTail (Char.toLower c) = true := by
  by_cases hu : 65 ≤ c.toNat ∧ c.toNat ≤ 90
  · have hlow := toLower_toNat_of_upper c hu.1 hu.2
    simp only [isIdentTail, isAsciiLower, Bool.or_eq_true, decide_eq_true_eq]
    exact Or.inl (Or.inl (by omega))
  · rw [toLower_eq_self c hu]
    simp only [isWordChar, isAsciiUpper, isAsciiLower, isAsciiDigit,
      Bool.or_eq_true, decide_eq_true_eq] at h
    simp only [isIdentTail, isAsciiLower, isAsciiDigit, Bool.or_eq_true,
      decide_eq_true_eq]
    rcases h with ((h | h) | h) | h
    · exact absurd h hu
    · exact Or.inl (Or.inl h)
    · exact Or.inl (Or.inr h)
    · exact Or.inr h

/-- Helper: every character produced by the substitution step is a word
character. -/
theorem isWordChar_of_mem_subNonWord {c : Char} {l : List Char}
    (h : c ∈ subNonWord l) : isWordChar c = true := by
  simp only [subNonWord, List.mem_map] at h
  obtain ⟨d, _, rfl⟩ := h
  by_cases hw : isWordChar d = true
  · rw [if_pos hw]
    exact hw
  · rw [if_neg hw]
    decide

/-- Helper: underscore stripping only removes characters. -/
theorem mem_of_mem_stripUnd {c : Char} {l : List Char} (h : c ∈ stripUnd l) :
    c ∈ l := by
  unfold stripUnd at h
  rw [List.mem_reverse] at h
  have h2 := List.Sublist.mem h (List.dropWhile_sublist _)
  rw [List.mem_reverse] at h2
  exact List.Sublist.mem h2 (List.dropWhile_sublist _)

/-- Helper: the head surviving a dropWhile does not satisfy the predicate. -/
theorem dropWhile_head_false (p : Char → Bool) :
    ∀ (l : List Char) (hd : Char) (tl : List Char),
      l.dropWhile p = hd :: tl → p hd = false := by
  intro l
  induction l with
  | nil =>
    intro hd tl h
    simp [List.dropWhile] at h
  | cons a t ih =>
    intro hd tl h
    rw [List.dropWhile_cons] at h
    by_cases hp : p a = true
    · rw [if_pos hp] at h
      exact ih hd tl h
    · rw [if_neg hp] at h
      cases h
      rw [Bool.not_eq_true] at hp
      exact hp

/-- Helper: a nonempty strip result never starts with an underscore. -/
theorem stripUnd_head_not_und (l : List Char) (hd : Char) (tl : List Char)
    (h : stripUnd l = hd :: tl) : (hd == '_') = false := by
  have hpre : stripUnd l <+: l.dropWhile (fun c => c == '_') := by
    have h2 : ((l.dropWhile (fun c => c == '_')).reverse.dropWhile
          (fun c => c == '_')).reverse <+:
        ((l.dropWhile (fun c => c == '_')).reverse).reverse :=
      List.reverse_prefix.mpr (List.dropWhile_suffix _)
    rw [List.reverse_reverse] at h2
    exact h2
  rw [h] at hpre
  obtain ⟨r, hr⟩ := hpre
  exact dropWhile_head_false _ l hd (tl ++ r) (by rw [← hr]; simp)

/-- Helper: the pre-truncation name starts with an ASCII letter. -/
theorem sanitize_core_cons (x : List Char) :
    ∃ hd tl,
      (if needsSheetMark (stripUnd (subNonWord x)) then
        sheetMark ++ stripUnd (subNonWord x)
      else stripUnd (subNonWord x)) = hd :: tl ∧
      ((65 ≤ hd.toNat ∧ hd.toNat ≤ 90) ∨ (97 ≤ hd.toNat ∧ hd.toNat ≤ 122)) := by
  by_cases h : needsSheetMark (stripUnd (subNonWord x))
  · rw [if_pos h]
    exact ⟨'s', ['h', 'e', 'e', 't', '_'] ++ stripUnd (subNonWord x), rfl,
      Or.inr (by decide)⟩
  · rw [if_neg h]
    rcases hn : stripUnd (subNonWord x) with _ | ⟨c, t⟩
    · rw [hn] at h
      exact absurd rfl h
    · refine ⟨c, t, rfl, ?_⟩
      rw [hn] at h
      have hcr : ((isAsciiUpper c || isAsciiLower c) || c == '_') = true := by
        by_contra hx
        apply h
        simp only [needsSheetMark]
        rw [Bool.not_eq_true] at hx
        rw [hx]
        rfl
      have hne : (c == '_') = false := stripUnd_head_not_und (subNonWord x) c t hn
      rw [hne, Bool.or_false] at hcr
      simp only [isAsciiUpper, isAsciiLower, Bool.or_eq_true, decide_eq_true_eq] at hcr
      exact hcr

/-- Helper: the sanitized name is a nonempty word starting with a lower-case
letter. -/
theorem sanitize_cons (x : List Char) :
    ∃ hd tl, sanitize_table_name x = hd :: tl ∧ isAsciiLower hd = true := by
  obtain ⟨h0, t0, hn3, hrange⟩ := sanitize_core_cons x
  unfold sanitize_table_name
  rw [hn3]
  rw [show (h0 :: t0).take 63 = h0 :: t0.take 62 from rfl]
  refine ⟨Char.toLower h0, (t0.take 62).map Char.toLower, rfl, ?_⟩
  rcases hrange with hu | hlo
  · have hl := toLower_toNat_of_upper h0 hu.1 hu.2
    simp only [isAsciiLower, decide_eq_true_eq]
    omega
  · rw [toLower_eq_self h0 (by omega)]
    simp only [isAsciiLower, decide_eq_true_eq]
    omega

/-- Helper: every character of the sanitized name is in the identifier tail
class. -/
theorem sanitize_mem_isIdentTail (x : List Char) :
    ∀ c ∈ sanitize_table_name x, isIdentTail c = true := by
  intro c hc
  unfold sanitize_table_name at hc
  rw [List.mem_map] at hc
  obtain ⟨d, hd, rfl⟩ := hc
  have hd2 := List.Sublist.mem hd (List.take_sublist _ _)
  have hw : isWordChar d = true := by
    by_cases h : needsSheetMark (stripUnd (subNonWord x))
    · rw [if_pos h] at hd2
      rcases List.mem_append.mp hd2 with h1 | h1
      · simp only [sheetMark, List.mem_cons, List.not_mem_nil, or_false] at h1
        rcases h1 with rfl | rfl | rfl | rfl | rfl | rfl <;> decide
      · exact isWordChar_of_mem_subNonWord (mem_of_mem_stripUnd h1)
    · rw [if_neg h] at hd2
      exact isWordChar_of_mem_subNonWord (mem_of_mem_stripUnd hd2)
  exact isIdentTail_toLower d hw

/-- Helper: the sanitized name never exceeds 63 characters. -/
theorem sanitize_length_le (x : List Char) :
    (sanitize_table_name x).length ≤ 63 := by
  unfold sanitize_table_name
  rw [List.length_map, List.length_take]
  exact inf_le_left

/-- Helper: a map whose function fixes every element is the identity. -/
theorem map_eq_self_of_fix {f : Char → Char} {l : List Char}
    (h : ∀ c ∈ l, f c = c) : l.map f = l := by
  induction l with
  | nil => rfl
  | cons a t ih =>
    rw [List.map_cons, h a (by simp), ih (fun c hc => h c (by simp [hc]))]

/-- Helper: lower-casing fixes identifier tail characters. -/
theorem toLower_fix_of_identTail (c : Char) (h : isIdentTail c = true) :
    Char.toLower c = c := by
  apply toLower_eq_self
  simp only [isIdentTail, isAsciiLower, isAsciiDigit, Bool.or_eq_true,
    decide_eq_true_eq, beq_iff_eq] at h
  rcases h with (h | h) | h
  · omega
  · omega
  · subst h
    decide

/-- Helper: identifier tail characters are word characters. -/
theorem isWordChar_of_identTail (c : Char) (h : isIdentTail c = true) :
    isWordChar c = true := by
  simp only [isIdentTail, Bool.or_eq_true] at h
  simp only [isWordChar, Bool.or_eq_true]
  rcases h with (h | h) | h
  · exact Or.inl (Or.inl (Or.inr h))
  · exact Or.inl (Or.inr h)
  · exact Or.inr h

/-- Helper: substitution fixes a list of word characters. -/
theorem subNonWord_fix (l : List Char) (h : ∀ c ∈ l, isWordChar c = true) :
    subNonWord l = l := by
  unfold subNonWord
  apply map_eq_self_of_fix
  intro c hc
  rw [if_pos (h c hc)]

/-- Helper: dropWhile fixes a list whose head fails the predicate. -/
theorem dropWhile_eq_self_of_head (p : Char → Bool) (l : List Char)
    (h : ∀ hd tl, l = hd :: tl → p hd = false) : l.dropWhile p = l := by
  cases l with
  | nil => rfl
  | cons a t =>
    rw [List.dropWhile_cons, if_neg (by rw [h a t rfl]; simp)]

/-- Helper: underscore stripping fixes a list with no underscore at either
end. -/
theorem stripUnd_eq_self (l : List Char)
    (hhead : ∀ hd tl, l = hd :: tl → (hd == '_') = false)
    (hlast : l.getLast? ≠ some '_') : stripUnd l = l := by
  unfold stripUnd
  rw [dropWhile_eq_self_of_head _ l hhead]
  rw [dropWhile_eq_self_of_head _ l.reverse ?_]
  · exact List.reverse_reverse l
  · intro hd tl h
    have hh : l.reverse.head? = some hd := by rw [h]; rfl
    rw [List.head?_reverse] at hh
    by_contra hx
    rw [Bool.not_eq_false, beq_iff_eq] at hx
    subst hx
    exact hlast hh

/-- C4 (amended): the sanitized name always matches the identifier pattern
and is at most 63 characters long; sanitizing is idempotent on every input
whose sanitized form does not end in an underscore (it is not idempotent in
general: a trailing underscore survives truncation or the sheet mark but is
stripped by a second pass). -/
theorem C4_sanitize_properties (x : List Char) :
    matchesIdent (sanitize_table_name x) = true ∧
    (sanitize_table_name x).length ≤ 63 ∧
    ((sanitize_table_name x).getLast? ≠ some '_' →
      sanitize_table_name (sanitize_table_name x) = sanitize_table_name x) := by
  refine ⟨?_, sanitize_length_le x, ?_⟩
  · obtain ⟨hd, tl, heq, hlow⟩ := sanitize_cons x
    rw [heq]
    simp only [matchesIdent, Bool.and_eq_true, Bool.or_eq_true]
    refine ⟨Or.inl hlow, ?_⟩
    rw [List.all_eq_true]
    intro c hc
    exact sanitize_mem_isIdentTail x c (by rw [heq]; exact List.mem_cons_of_mem _ hc)
  · intro hlast
    obtain ⟨hd, tl, heq, hlow⟩ := sanitize_cons x
    have hchars := sanitize_mem_isIdentTail x
    have hsub : subNonWord (sanitize_table_name x) = sanitize_table_name x :=
      subNonWord_fix _ (fun c hc => isWordChar_of_identTail c (hchars c hc))
    have hstrip : stripUnd (sanitize_table_name x) = sanitize_table_name x := by
      apply stripUnd_eq_self _ ?_ hlast
      intro h0 t0 h
      rw [heq] at h
      cases h
      have hne : hd ≠ '_' := by
        intro hx
        rw [hx] at hlow
        exact absurd hlow (by decide)
      exact beq_eq_false_iff_ne.mpr hne
    have hmark : needsSheetMark (sanitize_table_name x) = false := by
      rw [heq]
      simp [needsSheetMark, hlow]
    have htake : (sanitize_table_name x).take 63 = sanitize_table_name x :=
      List.take_of_length_le (sanitize_length_le x)
    have hmap : (sanitize_table_name x).map Char.toLower = sanitize_table_name x :=
      map_eq_self_of_fix (fun c hc => toLower_fix_of_identTail c (hchars c hc))
    conv_lhs => rw [sanitize_table_name]
    rw [hsub, hstrip]
    rw [if_neg (by rw [hmark]; simp)]
    rw [htake, hmap]

/-- C4 counterexample: sanitizing the empty name yields the sheet mark, whose
second sanitization strips the trailing underscore, so the sanitizer is not
idempotent as claimed. -/
theorem C4_sanitize_not_idempotent :
    ¬ (sanitize_table_name (sanitize_table_name []) = sanitize_table_name []) := by
  decide

/-- A concrete name whose sanitized form ends in a letter. -/
def wname : List Char := ['A', 'b', '1']

/-- C4 witness: the amended properties evaluated at a concrete name. -/
theorem C4_sanitize_properties_witness :
    matchesIdent (sanitize_table_name wname) = true ∧
    (sanitize_table_name wname).length ≤ 63 ∧
    sanitize_table_name (sanitize_table_name wname) = sanitize_table_name wname := by
  obtain ⟨h1, h2, h3⟩ := C4_sanitize_properties wname
  exact ⟨h1, h2, h3 (by decide)⟩

/-! ### Multi-sheet error propagation -/

/-- A valid two-column sheet with columns x, y. -/
def dfSheetA : DataFrame :=
  ⟨[⟨some "x", ⟨Dtype.objectD, [some "1"]⟩⟩,
    ⟨some "y", ⟨Dtype.objectD, [some "2"]⟩⟩], 1⟩

/-- A second valid two-column sheet with columns x, y. -/
def dfSheetB : DataFrame :=
  ⟨[⟨some "x", ⟨Dtype.objectD, [some "3"]⟩⟩,
    ⟨some "y", ⟨Dtype.objectD, [some "4"]⟩⟩], 1⟩

/-- A destination whose table t_a has a conflicting column set. -/
def db7 : DB := [("t_a", ⟨[("z", "TEXT")], [["0"]]⟩)]

/-- Strict-schema import with replace policy. -/
def args7 : ImportArgs := ⟨IfExists.replace, true⟩

/-- C7 counterexample: with strict schema, the workbook with a mismatching
first sheet and a perfectly importable second sheet imports nothing (the
mismatch aborts the loop), while the second sheet alone imports fine, so a
SchemaMismatch is not isolated to its sheet. -/
theorem C7_counterexample :
    (import_excel_file noParsers args7 "t" (fun _ => false) db7
      [("a".toList, dfSheetA), ("b".toList, dfSheetB)] 0).imported = [] ∧
    (import_excel_file noParsers args7 "t" (fun _ => false) db7
      [("a".toList, dfSheetA), ("b".toList, dfSheetB)] 0).err =
      some (["z"], [some "x", some "y"]) ∧
    (import_excel_file noParsers args7 "t" (fun _ => false) db7
      [("b".toList, dfSheetB)] 0).imported = ["t_b"] := by
  refine ⟨?_, ?_, ?_⟩ <;> rfl

/-- C7 (amended): in the excel loop a strict-schema compatibility failure on
one sheet propagates, aborting the run with the remaining sheets
unprocessed and nothing further imported, whereas a destination write
failure on a sheet is caught and the loop continues with the remaining
sheets. -/
theorem C7_sheet_error_propagation (prs : Parsers) (args : ImportArgs)
    (baseTable : String) (writeFail : Nat → Bool) (db : DB) (sname : List Char)
    (df : DataFrame) (rest : List (List Char × DataFrame)) (i : Nat) :
    (∀ e, is_valid_sheet df = true →
      ¬(args.ifExists = IfExists.fail ∧
        table_exists db (sheetTableName baseTable sname)) →
      (args.strictSchema ∧ table_exists db (sheetTableName baseTable sname)) →
      check_schema_compatibility db (sheetTableName baseTable sname)
        (infer_schema prs df) = Except.error e →
      import_excel_file prs args baseTable writeFail db ((sname, df) :: rest) i =
        ⟨db, [], some e⟩) ∧
    (is_valid_sheet df = true →
      ¬(args.ifExists = IfExists.fail ∧
        table_exists db (sheetTableName baseTable sname)) →
      (if args.strictSchema ∧ table_exists db (sheetTableName baseTable sname) then
        check_schema_compatibility db (sheetTableName baseTable sname)
          (infer_schema prs df)
      else Except.ok true) = Except.ok true →
      writeFail i = true →
      import_excel_file prs args baseTable writeFail db ((sname, df) :: rest) i =
        import_excel_file prs args baseTable writeFail db rest (i + 1)) := by
  constructor
  · intro e hvalid hnofail hstrict hcheck
    simp only [import_excel_file]
    rw [if_neg (by rw [hvalid]; simp)]
    rw [if_neg hnofail]
    rw [if_pos hstrict, hcheck]
  · intro hvalid hnofail hcheck hwf
    have hts : to_sql db (sheetTableName baseTable sname) (frameOf prs df)
        args.ifExists (writeFail i) = Except.error WriteError.externalFailure := by
      unfold to_sql
      rw [if_pos hwf]
    simp only [import_excel_file]
    rw [if_neg (by rw [hvalid]; simp)]
    rw [if_neg hnofail]
    rw [hcheck, hts]

/-- C7 witness: the amended behaviour on concrete workbooks — the mismatch
on sheet a returns with nothing imported and the error set, and a failing
write on sheet b is skipped while the loop continues. -/
theorem C7_sheet_error_propagation_witness :
    import_excel_file noParsers args7 "t" (fun _ => false) db7
      [("a".toList, dfSheetA), ("b".toList, dfSheetB)] 0 =
      ⟨db7, [], some (["z"], [some "x", some "y"])⟩ ∧
    import_excel_file noParsers ⟨IfExists.replace, false⟩ "t" (fun i => i == 0) []
      [("b".toList, dfSheetB)] 0 =
      import_excel_file noParsers ⟨IfExists.replace, false⟩ "t" (fun i => i == 0) []
        [] 1 := by
  constructor
  · exact (C7_sheet_error_propagation noParsers args7 "t" (fun _ => false) db7
      "a".toList dfSheetA [("b".toList, dfSheetB)] 0).1
      (["z"], [some "x", some "y"]) rfl (by simp [table_exists, lookupTable]; decide)
      ⟨rfl, by decide⟩ rfl
  · exact (C7_sheet_error_propagation noParsers ⟨IfExists.replace, false⟩ "t"
      (fun i => i == 0) [] "b".toList dfSheetB [] 0).2
      rfl (by simp [table_exists, lookupTable]) rfl rfl

end DIT
